import Mathlib

/-!
Verification of `src/remindme_bot.py` (fluxer-remindme-bot).

Shallow embedding conventions:
* Instants and durations are integers (a UTC timestamp in seconds).  The bot
  stores `remind_time` as the ISO-8601 text of a timezone-aware UTC datetime
  (`datetime.now(dateutil.tz.UTC) + delta`); for such fixed-format UTC strings
  lexicographic text order (SQLite `ORDER BY remind_time ASC` on the TEXT
  column) coincides with chronological order, so the embedding orders rows by
  the numeric timestamp.
* The SQLite tables become Lean lists: `reminders` a `List Reminder`
  (`AUTOINCREMENT` row ids modelled by a `next_id` counter that never reuses
  ids), the two settings tables association lists keyed by the TEXT primary
  key.
* The external timezone database (`dateutil.tz.gettz`) is an environment
  parameter `gettz : String → Option TZInfo`; `dateutil.tz.UTC` is `tzUTC`.
* `async` loop bodies become step functions on explicit state; the message
  queue worker gets a discrete-time semantics (milliseconds) spelled out at
  `WState` below.
-/

namespace RemindMe

/-! ### Duration parsing: `parse_simple_time` (source lines 79-90) -/

/-- Python `str.lower()` on one character, restricted to Basic Latin (the
inputs the bot's duration grammar concerns). -/
def pyLower (c : Char) : Char :=
  if 65 ≤ c.toNat ∧ c.toNat ≤ 90 then Char.ofNat (c.toNat + 32) else c

/-- Python `t.lower()` (Basic Latin fragment), as a map over the characters. -/
def strLower (s : String) : String :=
  ⟨s.data.map pyLower⟩

/-- Value of a digit string, as Python `int` reads it. -/
def digitsToNat (ds : List Char) : Nat :=
  ds.foldl (fun n c => 10 * n + (c.toNat - 48)) 0

/-- Seconds in one unit of the duration grammar (`timedelta(days/hours/minutes/seconds=v)`). -/
def unitSeconds (u : Char) : Int :=
  if u = 'd' then 86400 else if u = 'h' then 3600 else if u = 'm' then 60 else 1

/-- `parse_simple_time(t)`: `re.match(r"^(\d+)([dhms])$", t.lower())`, returning
the parsed `timedelta` as a number of seconds, or `none` when the regex does
not match.  Notes kept from Python semantics: `$` also matches just before a
single trailing newline, so one trailing `'\n'` is tolerated; digits are
modelled as ASCII digits. -/
def parse_simple_time (t : String) : Option Int :=
  let cs := (strLower t).data
  let core := if cs.getLast? = some '\n' then cs.dropLast else cs
  match core.getLast? with
  | none => none
  | some u =>
    if u = 'd' ∨ u = 'h' ∨ u = 'm' ∨ u = 's' then
      let ds := core.dropLast
      if ds ≠ [] ∧ ds.all Char.isDigit then
        some ((digitsToNat ds : Int) * unitSeconds u)
      else none
    else none

/-! ### Timezone resolution: `get_tz_context` (source lines 92-105) -/

/-- A timezone object as handed out by the external `dateutil.tz` database. -/
structure TZInfo where
  name : String
deriving DecidableEq, Repr

/-- `dateutil.tz.UTC`. -/
def tzUTC : TZInfo := ⟨"UTC"⟩

/-- `get_tz_context(conn, channel_id, user_id)`.  The settings tables are the
association lists of the store; `gettz` is the environment's timezone lookup
(`dateutil.tz.gettz`, `none` for an unknown name).  The user row is consulted
first, then the channel row, else the UTC default; when a row exists its
stored name is returned together with whatever `gettz` yields for it, even
`none`. -/
def get_tz_context (gettz : String → Option TZInfo)
    (user_settings server_settings : List (String × String))
    (channel_id user_id : String) : Option TZInfo × String :=
  match user_settings.lookup user_id with
  | some name => (gettz name, name)
  | none =>
    match server_settings.lookup channel_id with
    | some name => (gettz name, name)
    | none => (some tzUTC, "UTC")

/-! ### Store state and the command handlers (source lines 212-274) -/

/-- One row of the `reminders` table.  `rrule_str` and `interval_hours` are
always inserted as NULL and never read, so they are omitted; `remind_time`
is the UTC timestamp encoded by the stored ISO-8601 string. -/
structure Reminder where
  id : Nat
  channel_id : String
  user_id : String
  message : String
  remind_time : Int
  original_tz : String
deriving DecidableEq, Repr

/-- The persisted state: the three tables plus the `AUTOINCREMENT` counter for
reminder row ids. -/
structure BotState where
  reminders : List Reminder
  user_settings : List (String × String)
  server_settings : List (String × String)
  next_id : Nat
deriving DecidableEq, Repr

/-- `INSERT OR REPLACE` into a settings table keyed by its TEXT primary key:
the old row with that key (if any) is replaced by the new one. -/
def upsert (key value : String) (table : List (String × String)) :
    List (String × String) :=
  (key, value) :: table.filter (fun row => row.1 ≠ key)

/-- What a command handler sends back through `ctx.reply`.  Each constructor
records the reply at the corresponding source line; `reminderSet` carries the
data the success reply is formatted from (`rid` and the due instant rendered
in the resolved zone). -/
inductive Reply where
  /-- "❌ Admin only." -/
  | adminOnly : Reply
  /-- "Invalid timezone." -/
  | invalidTimezone : Reply
  /-- "Timezone set to {timezone}" -/
  | tzSet : String → Reply
  /-- "Your timezone set to {timezone}" -/
  | myTzSet : String → Reply
  /-- "Invalid time format. Example: 10s 5m 2h 1d" -/
  | invalidTimeFormat : Reply
  /-- "✅ Reminder #{rid} set for {local strftime}" -/
  | reminderSet : Nat → Int → Option TZInfo → Reply
deriving DecidableEq, Repr

/-- `!settz <timezone>` (source lines 212-227): admin gate, then timezone
validation via `gettz`, then upsert into `server_settings`.
`admin_role_id` is the configured role (`""` when unset, which disables the
gate — Python falseyness of the empty string); `author_roles` is
`ctx.author.role_ids`. -/
def settz (gettz : String → Option TZInfo) (admin_role_id : String)
    (author_roles : List String) (channel_id : String) (timezone : String)
    (st : BotState) : Reply × BotState :=
  if admin_role_id ≠ "" ∧ admin_role_id ∉ author_roles then
    (Reply.adminOnly, st)
  else if (gettz timezone).isNone then
    (Reply.invalidTimezone, st)
  else
    (Reply.tzSet timezone,
     { st with server_settings := upsert channel_id timezone st.server_settings })

/-- `!mytz <timezone>` (source lines 229-240): timezone validation via
`gettz`, then upsert into `user_settings`. -/
def mytz (gettz : String → Option TZInfo) (user_id : String) (timezone : String)
    (st : BotState) : Reply × BotState :=
  if (gettz timezone).isNone then
    (Reply.invalidTimezone, st)
  else
    (Reply.myTzSet timezone,
     { st with user_settings := upsert user_id timezone st.user_settings })

/-- `!remind <duration> <message>` (source lines 242-274).  `now` is
`datetime.now(dateutil.tz.UTC)` at the call.  The guard is `if not delta:`,
which in Python catches both `None` (regex failure) and the falsy
`timedelta(0)` (a zero duration such as "0s"); in either case the handler
replies and returns before touching the store.  Otherwise it resolves the
timezone context and inserts one row whose `remind_time` is `now + delta`
(stored as the unambiguous ISO-8601 text of that UTC instant) and whose
`original_tz` is the resolved name. -/
def remind (gettz : String → Option TZInfo) (now : Int) (channel_id user_id : String)
    (time_str message : String) (st : BotState) : Reply × BotState :=
  match parse_simple_time time_str with
  | none => (Reply.invalidTimeFormat, st)
  | some delta =>
    if delta = 0 then (Reply.invalidTimeFormat, st)
    else
    let remind_dt := now + delta
    let ctx := get_tz_context gettz st.user_settings st.server_settings channel_id user_id
    let rid := st.next_id
    (Reply.reminderSet rid remind_dt ctx.1,
     { st with
         reminders := st.reminders ++
           [⟨rid, channel_id, user_id, message, remind_dt, ctx.2⟩],
         next_id := st.next_id + 1 })

/-! ### Scheduler poll tick (source lines 162-198)

One iteration of the `scheduler` loop body: snapshot
`SELECT * FROM reminders ORDER BY remind_time ASC`, then for each row whose
parsed `remind_time` is `≤ now`, call `send_reminder`, which first enqueues
the rendered delivery message onto the outbound queue and then executes
`DELETE FROM reminders WHERE id=?` against the live table.  The tick returns
the fired rows (one enqueued delivery message per fired row, in dispatch
order) and the table afterwards. -/

/-- Order used by `ORDER BY remind_time ASC` (chronological; on the stored
fixed-format UTC ISO-8601 text, lexicographic = chronological). -/
def byTime (a b : Reminder) : Prop :=
  a.remind_time ≤ b.remind_time

instance : DecidableRel byTime := fun a b => by
  unfold byTime; infer_instance

instance : IsTotal Reminder byTime :=
  ⟨fun a b => Int.le_total a.remind_time b.remind_time⟩

instance : IsTrans Reminder byTime :=
  ⟨fun _ _ _ => Int.le_trans⟩

/-- `DELETE FROM reminders WHERE id=?`: removes every row carrying that id. -/
def deleteById (i : Nat) (table : List Reminder) : List Reminder :=
  table.filter (fun row => row.id ≠ i)

/-- The body of the scheduler's `for r in reminders` loop: when the row is
due, `send_reminder(r)` appends its rendered message to the outbound queue
(recorded by appending `r` to the dispatch list) and then deletes row `r.id`
from the live table; otherwise nothing happens. -/
def tickStep (now : Int) (acc : List Reminder × List Reminder) (r : Reminder) :
    List Reminder × List Reminder :=
  if r.remind_time ≤ now then (acc.1 ++ [r], deleteById r.id acc.2) else acc

/-- One scheduler poll at UTC instant `now`: returns the dispatched
(fired-and-deleted) rows in dispatch order, and the resulting table. -/
def schedTick (now : Int) (store : List Reminder) : List Reminder × List Reminder :=
  (List.insertionSort byTime store).foldl (tickStep now) ([], store)

/-- Finitely many further scheduler polls at the given instants. -/
def ticksFrom (nows : List Int) (store : List Reminder) : List Reminder :=
  nows.foldl (fun st n => (schedTick n st).2) store

/-! ### Outbound delivery queue: `queue_worker` (source lines 136-158)

Discrete-time semantics, in milliseconds.  The producers' enqueues are an
environment trace `events : List Fragment`, listed in enqueue (FIFO) order
with nondecreasing `enqAt` times; `consumed` counts the fragments already
popped off the deque.  One `step` is one wake-up of the worker coroutine at
instant `time`:

* if the deque is empty (`no unconsumed fragment enqueued at or before
  `time`), the worker sleeps 0.2 s and loops;
* otherwise the collection loop pops the whole available deque: the loop body
  contains no `await`, so under the single-threaded cooperative scheduler no
  time passes and no new fragment can arrive while it runs, and the
  `BURST_WINDOW` elapsed-time break (`> 2` s since collection started) can
  never trigger;
* the popped batch is joined with `"\n".join` and passed to
  `allowed_channel.send`; on success the worker sleeps `SEND_INTERVAL`
  (1 s), on a transport exception (`failsAt time`) the handler logs and
  sleeps 2 s — the popped batch is gone either way.

Whether the transport raises is an environment choice, modelled by the
predicate `failsAt` on the send instant. -/

/-- An enqueued outbound text fragment and its enqueue instant (ms). -/
structure Fragment where
  enqAt : Nat
  text : String
deriving DecidableEq, Repr

/-- `SEND_INTERVAL = 1` (seconds), in ms. -/
def SEND_INTERVAL_MS : Nat := 1000

/-- `BURST_WINDOW = 2` (seconds), in ms.  Dead under cooperative scheduling
(see the section comment); recorded for completeness. -/
def BURST_WINDOW_MS : Nat := 2000

/-- The empty-queue polling delay `asyncio.sleep(0.2)`, in ms. -/
def POLL_DELAY_MS : Nat := 200

/-- The exception-handler backoff `asyncio.sleep(2)`, in ms. -/
def ERROR_BACKOFF_MS : Nat := 2000

/-- Worker-loop state: next wake-up instant, number of fragments already
popped off the deque, and the successful outbound sends so far (instant and
the joined text handed to `allowed_channel.send`). -/
structure WState where
  time : Nat
  consumed : Nat
  sends : List (Nat × String)
deriving DecidableEq, Repr

/-- The deque contents at wake-up: the not-yet-popped fragments already
enqueued.  (`events` is sorted by `enqAt`, so `takeWhile` collects exactly
those with `enqAt ≤ time`.) -/
def batchOf (events : List Fragment) (s : WState) : List Fragment :=
  (events.drop s.consumed).takeWhile (fun f => f.enqAt ≤ s.time)

/-- One wake-up of `queue_worker`. -/
def step (failsAt : Nat → Bool) (events : List Fragment) (s : WState) : WState :=
  let batch := batchOf events s
  if batch.isEmpty then
    { s with time := s.time + POLL_DELAY_MS }
  else if failsAt s.time then
    { time := s.time + ERROR_BACKOFF_MS
      consumed := s.consumed + batch.length
      sends := s.sends }
  else
    { time := s.time + SEND_INTERVAL_MS
      consumed := s.consumed + batch.length
      sends := s.sends ++ [(s.time, String.intercalate "\n" (batch.map Fragment.text))] }

/-- `n` wake-ups of `queue_worker` (the loop is infinite; `n` is how far the
trace is unrolled). -/
def run (failsAt : Nat → Bool) (events : List Fragment) : Nat → WState → WState
  | 0, s => s
  | n + 1, s => run failsAt events n (step failsAt events s)

theorem pyLower_idem (c : Char) : pyLower (pyLower c) = pyLower c := by
  by_cases h : 65 ≤ c.toNat ∧ c.toNat ≤ 90
  · have hval : (Char.ofNat (c.toNat + 32)).toNat = c.toNat + 32 := by
      have hvalid : (c.toNat + 32).isValidChar := Or.inl (by omega)
      simp only [Char.ofNat, Char.toNat] at hvalid ⊢
      rw [dif_pos hvalid]
      simp [Char.ofNatAux, UInt32.toNat, BitVec.toNat_ofNatLt]
    have e1 : pyLower c = Char.ofNat (c.toNat + 32) := by rw [pyLower, if_pos h]
    rw [e1, pyLower, if_neg (by rw [hval]; omega)]
  · have e1 : pyLower c = c := by rw [pyLower, if_neg h]
    rw [e1, e1]

theorem strLower_idem (s : String) : strLower (strLower s) = strLower s := by
  have hcomp : pyLower ∘ pyLower = pyLower := funext pyLower_idem
  unfold strLower
  simp [List.map_map, hcomp]

/-! ### Scheduler tick lemmas -/

theorem mem_deleteById {i : Nat} {t : List Reminder} {x : Reminder} :
    x ∈ deleteById i t ↔ x ∈ t ∧ x.id ≠ i := by
  simp [deleteById]

theorem tickFold_fst (now : Int) :
    ∀ (l : List Reminder) (acc : List Reminder × List Reminder),
      (l.foldl (tickStep now) acc).1 =
        acc.1 ++ l.filter (fun r => r.remind_time ≤ now)
  | [], acc => by simp
  | r :: l, acc => by
    by_cases h : r.remind_time ≤ now <;>
      simp [tickStep, h, tickFold_fst now l, List.filter_cons]

theorem tickFold_snd_mem (now : Int) :
    ∀ (l : List Reminder) (acc : List Reminder × List Reminder) (x : Reminder),
      x ∈ (l.foldl (tickStep now) acc).2 ↔
        x ∈ acc.2 ∧ ∀ r ∈ l, r.remind_time ≤ now → x.id ≠ r.id
  | [], acc, x => by simp
  | r :: l, acc, x => by
    by_cases h : r.remind_time ≤ now
    · simp only [List.foldl_cons, tickStep, if_pos h,
        tickFold_snd_mem now l, mem_deleteById, List.mem_cons]
      constructor
      · rintro ⟨⟨hx, hne⟩, hrest⟩
        exact ⟨hx, fun r' hr' hdue => by
          rcases hr' with rfl | hr'
          · exact hne
          · exact hrest r' hr' hdue⟩
      · rintro ⟨hx, hall⟩
        exact ⟨⟨hx, hall r (.inl rfl) h⟩, fun r' hr' hdue => hall r' (.inr hr') hdue⟩
    · simp only [List.foldl_cons, tickStep, if_neg h,
        tickFold_snd_mem now l, List.mem_cons]
      constructor
      · rintro ⟨hx, hrest⟩
        exact ⟨hx, fun r' hr' hdue => by
          rcases hr' with rfl | hr'
          · exact absurd hdue h
          · exact hrest r' hr' hdue⟩
      · rintro ⟨hx, hall⟩
        exact ⟨hx, fun r' hr' hdue => hall r' (.inr hr') hdue⟩

theorem schedTick_fst (now : Int) (store : List Reminder) :
    (schedTick now store).1 =
      (List.insertionSort byTime store).filter (fun r => r.remind_time ≤ now) := by
  simpa [schedTick] using tickFold_fst now (List.insertionSort byTime store) ([], store)

theorem mem_schedTick_fst {now : Int} {store : List Reminder} {r : Reminder} :
    r ∈ (schedTick now store).1 ↔ r ∈ store ∧ r.remind_time ≤ now := by
  rw [schedTick_fst, List.mem_filter,
    (List.perm_insertionSort byTime store).mem_iff, decide_eq_true_eq]

theorem schedTick_snd_mem {now : Int} {store : List Reminder} {x : Reminder} :
    x ∈ (schedTick now store).2 ↔
      x ∈ store ∧ ∀ r ∈ store, r.remind_time ≤ now → x.id ≠ r.id := by
  rw [schedTick, tickFold_snd_mem]
  constructor
  · rintro ⟨hx, hall⟩
    exact ⟨hx, fun r hr =>
      hall r ((List.perm_insertionSort byTime store).mem_iff.mpr hr)⟩
  · rintro ⟨hx, hall⟩
    exact ⟨hx, fun r hr =>
      hall r ((List.perm_insertionSort byTime store).mem_iff.mp hr)⟩

theorem schedTick_snd_subset {now : Int} {store : List Reminder} {x : Reminder}
    (hx : x ∈ (schedTick now store).2) : x ∈ store :=
  (schedTick_snd_mem.mp hx).1

theorem ticksFrom_subset :
    ∀ (nows : List Int) (store : List Reminder) (x : Reminder),
      x ∈ ticksFrom nows store → x ∈ store
  | [], _, _, h => h
  | n :: nows, store, x, h =>
    schedTick_snd_subset (ticksFrom_subset nows (schedTick n store).2 x h)

/-! ### Claim theorems -/

/-- C1 (Fire-once): in a scheduler poll at `now` over a table with distinct
row ids, every dispatched reminder came from the table; every dispatched
reminder's row is deleted in the same poll (absent afterwards); it is never
dispatched again by any sequence of later polls; and every row that
disappears in the poll was dispatched (enqueued for delivery) in it. -/
theorem C1_fire_once (now : Int) (store : List Reminder)
    (hids : (store.map Reminder.id).Nodup) :
    (∀ r ∈ (schedTick now store).1, r ∈ store) ∧
    (∀ r ∈ (schedTick now store).1, r ∉ (schedTick now store).2) ∧
    (∀ r ∈ (schedTick now store).1, ∀ (nows : List Int) (now2 : Int),
      r ∉ (schedTick now2 (ticksFrom nows (schedTick now store).2)).1) ∧
    (∀ r ∈ store, r ∉ (schedTick now store).2 → r ∈ (schedTick now store).1) := by
  have hfired : ∀ r, r ∈ (schedTick now store).1 ↔ r ∈ store ∧ r.remind_time ≤ now :=
    fun r => mem_schedTick_fst
  refine ⟨fun r hr => ((hfired r).mp hr).1, ?_, ?_, ?_⟩
  · intro r hr hr2
    rcases (hfired r).mp hr with ⟨hmem, hdue⟩
    exact (schedTick_snd_mem.mp hr2).2 r hmem hdue rfl
  · intro r hr nows now2 hr2
    have hnot : r ∉ (schedTick now store).2 := by
      intro hr2'
      rcases (hfired r).mp hr with ⟨hmem, hdue⟩
      exact (schedTick_snd_mem.mp hr2').2 r hmem hdue rfl
    exact hnot (ticksFrom_subset nows _ r (mem_schedTick_fst.mp hr2).1)
  · intro r hmem hnot
    rcases schedTick_snd_mem.not.mp hnot with h
    push_neg at h
    rcases h hmem with ⟨d, hd, hddue, hid⟩
    have : d = r := List.inj_on_of_nodup_map hids hd hmem hid.symm
    subst this
    exact (hfired d).mpr ⟨hd, hddue⟩

/-- C1 witness: a due row (id 1, due at 10) in a two-row table with distinct
ids is deleted by the poll at time 10. -/
theorem C1_fire_once_witness :
    (([⟨1, "c", "u", "a", 10, "UTC"⟩, ⟨2, "c", "u", "b", 20, "UTC"⟩] :
        List Reminder).map Reminder.id).Nodup ∧
    (⟨1, "c", "u", "a", 10, "UTC"⟩ : Reminder) ∉
      (schedTick 10 [⟨1, "c", "u", "a", 10, "UTC"⟩, ⟨2, "c", "u", "b", 20, "UTC"⟩]).2 :=
  ⟨by decide,
   (C1_fire_once 10 [⟨1, "c", "u", "a", 10, "UTC"⟩, ⟨2, "c", "u", "b", 20, "UTC"⟩]
      (by decide)).2.1 ⟨1, "c", "u", "a", 10, "UTC"⟩ (by decide)⟩

/-- C2 (Due-detection correctness): a scheduler poll at `now` dispatches
exactly the rows with `remind_time ≤ now` (as a permutation of the filtered
table, so every due row is included and no row due strictly later is), and
the dispatch list is ascending in `remind_time`. -/
theorem C2_due_detection (now : Int) (store : List Reminder) :
    (schedTick now store).1.Perm (store.filter (fun r => r.remind_time ≤ now)) ∧
    List.Sorted byTime (schedTick now store).1 := by
  constructor
  · rw [schedTick_fst]
    exact (List.perm_insertionSort byTime store).filter _
  · rw [schedTick_fst]
    exact (List.sorted_insertionSort byTime store).filter _

/-- C3 (Timezone resolution precedence): the per-user setting wins when
present; otherwise the per-channel setting; otherwise the UTC object with
name "UTC".  The function is total, so resolution never raises. -/
theorem C3_tz_precedence (gettz : String → Option TZInfo)
    (us ss : List (String × String)) (ch uid : String) :
    (∀ n, us.lookup uid = some n →
      get_tz_context gettz us ss ch uid = (gettz n, n)) ∧
    (∀ n, us.lookup uid = none → ss.lookup ch = some n →
      get_tz_context gettz us ss ch uid = (gettz n, n)) ∧
    (us.lookup uid = none → ss.lookup ch = none →
      get_tz_context gettz us ss ch uid = (some tzUTC, "UTC")) := by
  refine ⟨fun n hu => ?_, fun n hu hc => ?_, fun hu hc => ?_⟩
  · simp [get_tz_context, hu]
  · simp [get_tz_context, hu, hc]
  · simp [get_tz_context, hu, hc]

/-- C3 witness: with a user setting "America/New_York" and a channel setting
"UTC", resolution returns the user's zone; with no user setting, the
channel's; with neither, UTC. -/
theorem C3_tz_precedence_witness :
    ([("u", "America/New_York")].lookup "u" = some "America/New_York" ∧
      get_tz_context (fun s => some ⟨s⟩) [("u", "America/New_York")] [("c", "UTC")]
        "c" "u" = (some ⟨"America/New_York"⟩, "America/New_York")) ∧
    (([] : List (String × String)).lookup "u" = none ∧
      [("c", "UTC")].lookup "c" = some "UTC" ∧
      get_tz_context (fun s => some ⟨s⟩) [] [("c", "UTC")] "c" "u" =
        (some ⟨"UTC"⟩, "UTC")) ∧
    get_tz_context (fun s => some ⟨s⟩) [] [] "c" "u" = (some tzUTC, "UTC") :=
  ⟨⟨by decide,
    (C3_tz_precedence (fun s => some ⟨s⟩) [("u", "America/New_York")] [("c", "UTC")]
      "c" "u").1 "America/New_York" (by decide)⟩,
   ⟨by decide, by decide,
    (C3_tz_precedence (fun s => some ⟨s⟩) [] [("c", "UTC")] "c" "u").2.1 "UTC"
      (by decide) (by decide)⟩,
   (C3_tz_precedence (fun s => some ⟨s⟩) [] [] "c" "u").2.2 (by decide) (by decide)⟩

/-- C10 (implicit: no UTC fallback for a broken stored name): when a user or
channel settings row exists but `gettz` does not know its stored name,
resolution returns `(none, stored name)` — it does not fall back to UTC and
does not consult the next precedence level. -/
theorem C10_broken_setting_no_fallback (gettz : String → Option TZInfo)
    (us ss : List (String × String)) (ch uid : String) (n : String) :
    (us.lookup uid = some n → gettz n = none →
      get_tz_context gettz us ss ch uid = (none, n)) ∧
    (us.lookup uid = none → ss.lookup ch = some n → gettz n = none →
      get_tz_context gettz us ss ch uid = (none, n)) := by
  refine ⟨fun hu hg => ?_, fun hu hc hg => ?_⟩
  · simp [get_tz_context, hu, hg]
  · simp [get_tz_context, hu, hc, hg]

/-- C10 witness: a user row storing the unknown name "Bogus/Zone" resolves to
`(none, "Bogus/Zone")`, and so does a channel row when no user row exists. -/
theorem C10_broken_setting_no_fallback_witness :
    ([("u", "Bogus/Zone")].lookup "u" = some "Bogus/Zone" ∧
      (fun _ => (none : Option TZInfo)) "Bogus/Zone" = none ∧
      get_tz_context (fun _ => none) [("u", "Bogus/Zone")] [("c", "UTC")] "c" "u" =
        (none, "Bogus/Zone")) ∧
    (([] : List (String × String)).lookup "u" = none ∧
      [("c", "Bogus/Zone")].lookup "c" = some "Bogus/Zone" ∧
      get_tz_context (fun _ => none) [] [("c", "Bogus/Zone")] "c" "u" =
        (none, "Bogus/Zone")) :=
  ⟨⟨by decide, rfl,
    (C10_broken_setting_no_fallback (fun _ => none) [("u", "Bogus/Zone")]
      [("c", "UTC")] "c" "u" "Bogus/Zone").1 (by decide) rfl⟩,
   ⟨by decide, by decide,
    (C10_broken_setting_no_fallback (fun _ => none) [] [("c", "Bogus/Zone")]
      "c" "u" "Bogus/Zone").2 (by decide) (by decide) rfl⟩⟩

/-- C4 (Validation errors mutate nothing): a `!remind` whose duration string
fails to parse replies with the validation message and returns the store
untouched; `!settz` (past the admin gate) and `!mytz` with a name unknown to
`gettz` reply "Invalid timezone." and return the store untouched. -/
theorem C4_validation_no_mutation :
    (∀ (gettz : String → Option TZInfo) (now : Int) (ch uid ts msg : String)
        (st : BotState), parse_simple_time ts = none →
      remind gettz now ch uid ts msg st = (Reply.invalidTimeFormat, st)) ∧
    (∀ (gettz : String → Option TZInfo) (admin : String) (roles : List String)
        (ch tz : String) (st : BotState),
      ¬(admin ≠ "" ∧ admin ∉ roles) → gettz tz = none →
      settz gettz admin roles ch tz st = (Reply.invalidTimezone, st)) ∧
    (∀ (gettz : String → Option TZInfo) (uid tz : String) (st : BotState),
      gettz tz = none →
      mytz gettz uid tz st = (Reply.invalidTimezone, st)) := by
  refine ⟨fun gettz now ch uid ts msg st h => ?_,
    fun gettz admin roles ch tz st hadm hg => ?_,
    fun gettz uid tz st hg => ?_⟩
  · simp [remind, h]
  · simp [settz, hadm, hg]
  · simp [mytz, hg]

/-- C4 witness: "10x" fails to parse and `!remind` leaves a concrete store
unchanged; with an unknown-to-`gettz` name, `!settz` (admin gate disabled)
and `!mytz` leave it unchanged. -/
theorem C4_validation_no_mutation_witness :
    (parse_simple_time "10x" = none ∧
      remind (fun _ => none) 0 "c" "u" "10x" "hello" ⟨[], [], [], 1⟩ =
        (Reply.invalidTimeFormat, ⟨[], [], [], 1⟩)) ∧
    (¬(("" : String) ≠ "" ∧ "" ∉ ([] : List String)) ∧
      (fun _ => (none : Option TZInfo)) "Bogus/Zone" = none ∧
      settz (fun _ => none) "" [] "c" "Bogus/Zone" ⟨[], [], [], 1⟩ =
        (Reply.invalidTimezone, ⟨[], [], [], 1⟩)) ∧
    (mytz (fun _ => none) "u" "Bogus/Zone" ⟨[], [], [], 1⟩ =
      (Reply.invalidTimezone, ⟨[], [], [], 1⟩)) :=
  ⟨⟨by decide,
    C4_validation_no_mutation.1 (fun _ => none) 0 "c" "u" "10x" "hello"
      ⟨[], [], [], 1⟩ (by decide)⟩,
   ⟨by decide, rfl,
    C4_validation_no_mutation.2.1 (fun _ => none) "" [] "c" "Bogus/Zone"
      ⟨[], [], [], 1⟩ (by decide) rfl⟩,
   C4_validation_no_mutation.2.2 (fun _ => none) "u" "Bogus/Zone"
     ⟨[], [], [], 1⟩ rfl⟩

/-- C5 counterexample: "0s" matches the documented duration pattern
`^\d+[dhms]$` (it parses to a zero timedelta), yet `!remind 0s hi` replies
"Invalid time format..." — the Python guard `if not delta:` treats the falsy
`timedelta(0)` like a parse failure — and persists nothing, contradicting the
claim that every valid duration string persists exactly one new record. -/
theorem C5_zero_duration_counterexample :
    parse_simple_time "0s" = some 0 ∧
    remind (fun s => if s = "UTC" then some ⟨s⟩ else none) 100 "c" "u" "0s" "hi"
        ⟨[], [], [], 1⟩ =
      (Reply.invalidTimeFormat, ⟨[], [], [], 1⟩) := by
  constructor
  · decide
  · decide

/-- C5 as amended (Reminder creation postcondition): with a duration string
parsing to a nonzero duration of `d` seconds, `!remind` at UTC instant `now`
appends exactly one row, due at `now + d` (the instant whose UTC ISO-8601
text is stored) and carrying the timezone name resolved at creation time;
nothing else changes.  (A zero duration such as "0s" is rejected by the
handler's falsy-`timedelta` guard with the validation reply and persists
nothing — see the counterexample.) -/
theorem C5_create_postcondition (gettz : String → Option TZInfo) (now : Int)
    (ch uid ts msg : String) (st : BotState) (d : Int)
    (h : parse_simple_time ts = some d) (hd : d ≠ 0) :
    remind gettz now ch uid ts msg st =
      (Reply.reminderSet st.next_id (now + d)
        (get_tz_context gettz st.user_settings st.server_settings ch uid).1,
       { st with
           reminders := st.reminders ++
             [⟨st.next_id, ch, uid, msg, now + d,
               (get_tz_context gettz st.user_settings st.server_settings ch uid).2⟩],
           next_id := st.next_id + 1 }) := by
  simp [remind, h, hd]

/-- C5 witness: "10s" parses to the nonzero duration 10 seconds, and a
concrete `!remind` call at UTC instant 100 persists one row due at 110 with
the resolved name "UTC". -/
theorem C5_create_postcondition_witness :
    parse_simple_time "10s" = some 10 ∧ (10 : Int) ≠ 0 ∧
    remind (fun s => if s = "UTC" then some ⟨s⟩ else none) 100 "c" "u" "10s" "hi"
        ⟨[], [], [], 1⟩ =
      (Reply.reminderSet 1 110 (some ⟨"UTC"⟩),
       ⟨[⟨1, "c", "u", "hi", 110, "UTC"⟩], [], [], 2⟩) :=
  ⟨by decide, by decide,
   C5_create_postcondition (fun s => if s = "UTC" then some ⟨s⟩ else none) 100
     "c" "u" "10s" "hi" ⟨[], [], [], 1⟩ 10 (by decide) (by decide)⟩

/-- C9 (implicit: case-insensitive duration parsing): the duration string is
lowercased before the regex match, so parsing any string is the same as
parsing its lowercased form, and "10S" / "5M" parse like "10s" / "5m". -/
theorem C9_case_insensitive_parse :
    (∀ t : String, parse_simple_time (strLower t) = parse_simple_time t) ∧
    parse_simple_time "10S" = some 10 ∧ parse_simple_time "10s" = some 10 ∧
    parse_simple_time "5M" = some 300 ∧ parse_simple_time "5m" = some 300 := by
  refine ⟨fun t => ?_, by decide, by decide, by decide, by decide⟩
  unfold parse_simple_time
  rw [strLower_idem]

/-! ### Queue-worker lemmas -/

theorem takeWhile_of_all {α : Type} (p : α → Bool) :
    ∀ l : List α, l.all p = true → l.takeWhile p = l
  | [], _ => rfl
  | a :: l, h => by
    rw [List.all_cons, Bool.and_eq_true] at h
    simp [List.takeWhile_cons, h.1, takeWhile_of_all p l h.2]

theorem step_consumed_le (failsAt : Nat → Bool) (events : List Fragment)
    (s : WState) : s.consumed ≤ (step failsAt events s).consumed := by
  cases hb : (batchOf events s).isEmpty
  · cases hf : failsAt s.time
    · simp [step, hb, hf]
    · simp [step, hb, hf]
  · simp [step, hb]

theorem run_consumed_le (failsAt : Nat → Bool) (events : List Fragment) :
    ∀ (n : Nat) (s : WState), s.consumed ≤ (run failsAt events n s).consumed
  | 0, _ => le_refl _
  | n + 1, s =>
    le_trans (step_consumed_le failsAt events s)
      (run_consumed_le failsAt events n (step failsAt events s))

theorem run_sends_stable (failsAt : Nat → Bool) (events : List Fragment) :
    ∀ (n : Nat) (s : WState), events.length ≤ s.consumed →
      (run failsAt events n s).sends = s.sends
  | 0, _, _ => rfl
  | n + 1, s, h => by
    have hb : batchOf events s = [] := by
      simp [batchOf, List.drop_eq_nil_of_le h]
    have hstep : step failsAt events s = { s with time := s.time + POLL_DELAY_MS } := by
      simp [step, hb]
    show (run failsAt events n (step failsAt events s)).sends = s.sends
    rw [hstep]
    exact run_sends_stable failsAt events n _ h

/-- Invariant carried through the worker loop: the successful sends so far
are at least `SEND_INTERVAL_MS` apart, and the next wake-up is at least
`SEND_INTERVAL_MS` after the latest send. -/
def spacedInv (s : WState) : Prop :=
  List.Chain' (fun a b => a.1 + SEND_INTERVAL_MS ≤ b.1) s.sends ∧
  ∀ p ∈ s.sends.getLast?, p.1 + SEND_INTERVAL_MS ≤ s.time

theorem step_spaced (failsAt : Nat → Bool) (events : List Fragment)
    (s : WState) (h : spacedInv s) : spacedInv (step failsAt events s) := by
  obtain ⟨hchain, hlast⟩ := h
  cases hb : (batchOf events s).isEmpty with
  | true =>
    have hstep : step failsAt events s = { s with time := s.time + POLL_DELAY_MS } := by
      simp [step, hb]
    rw [hstep]
    exact ⟨hchain, fun p hp => le_trans (hlast p hp) (Nat.le_add_right _ _)⟩
  | false =>
    cases hf : failsAt s.time with
    | true =>
      have hstep : step failsAt events s =
          ⟨s.time + ERROR_BACKOFF_MS, s.consumed + (batchOf events s).length,
            s.sends⟩ := by
        simp [step, hb, hf]
      rw [hstep]
      exact ⟨hchain, fun p hp => le_trans (hlast p hp) (Nat.le_add_right _ _)⟩
    | false =>
      have hstep : step failsAt events s =
          ⟨s.time + SEND_INTERVAL_MS, s.consumed + (batchOf events s).length,
            s.sends ++
              [(s.time,
                String.intercalate "\n" ((batchOf events s).map Fragment.text))]⟩ := by
        simp [step, hb, hf]
      rw [hstep]
      refine ⟨?_, ?_⟩
      · show List.Chain' _ (s.sends ++ [(s.time, _)])
        rw [List.chain'_append]
        refine ⟨hchain, List.chain'_singleton _, fun x hx y hy => ?_⟩
        simp only [List.head?_cons, Option.mem_def, Option.some.injEq] at hy
        subst hy
        exact hlast x hx
      · intro p hp
        show p.1 + SEND_INTERVAL_MS ≤ s.time + SEND_INTERVAL_MS
        rw [show (⟨s.time + SEND_INTERVAL_MS, s.consumed + (batchOf events s).length,
          s.sends ++ [(s.time, String.intercalate "\n"
            ((batchOf events s).map Fragment.text))]⟩ : WState).sends =
          s.sends ++ [(s.time, String.intercalate "\n"
            ((batchOf events s).map Fragment.text))] from rfl,
          List.getLast?_concat] at hp
        simp only [Option.mem_def, Option.some.injEq] at hp
        subst hp
        simp

theorem run_spaced (failsAt : Nat → Bool) (events : List Fragment) :
    ∀ (n : Nat) (s : WState), spacedInv s → spacedInv (run failsAt events n s)
  | 0, _, h => h
  | n + 1, s, h =>
    run_spaced failsAt events n (step failsAt events s)
      (step_spaced failsAt events s h)

/-- C7 (Rate limiting): along any unrolling of the delivery loop (any
transport-failure pattern, any enqueue trace, any start instant), consecutive
successful outbound sends are at least `SEND_INTERVAL_MS` (1 s) apart. -/
theorem C7_rate_limiting (failsAt : Nat → Bool) (events : List Fragment)
    (fuel t c : Nat) :
    List.Chain' (fun a b => a.1 + SEND_INTERVAL_MS ≤ b.1)
      ((run failsAt events fuel ⟨t, c, []⟩).sends) :=
  (run_spaced failsAt events fuel ⟨t, c, []⟩
    ⟨List.chain'_nil, by simp⟩).1

/-- C6 counterexample: three fragments enqueued at 0 ms, 200 ms and 400 ms
(each within 500 ms of the others), burst window 2 s, transport never
failing — a worker that wakes at 0 ms sends twice ("a" alone, then "b\nc"),
not once. -/
theorem C6_counterexample :
    (run (fun _ => false) [⟨0, "a"⟩, ⟨200, "b"⟩, ⟨400, "c"⟩] 10 ⟨0, 0, []⟩).sends =
      [(0, "a"), (1000, "b\nc")] ∧
    (run (fun _ => false) [⟨0, "a"⟩, ⟨200, "b"⟩, ⟨400, "c"⟩] 10 ⟨0, 0, []⟩).sends.length
      ≠ 1 := by
  constructor
  · rfl
  · decide

/-- C6 as amended: when the worker begins a collection at instant `w` with
every enqueued fragment already in the queue (and nothing arrives later),
exactly one outbound send is made, at `w`, containing all fragments joined by
newlines in enqueue (FIFO) order.  In general fragments enqueued after the
collection instant go into later sends (see the counterexample). -/
theorem C6_burst_coalescing_amended (events : List Fragment) (w fuel : Nat)
    (hne : events ≠ []) (hall : events.all (fun f => f.enqAt ≤ w) = true)
    (hfuel : 1 ≤ fuel) :
    (run (fun _ => false) events fuel ⟨w, 0, []⟩).sends =
      [(w, String.intercalate "\n" (events.map Fragment.text))] := by
  obtain ⟨k, rfl⟩ : ∃ k, fuel = k + 1 := ⟨fuel - 1, by omega⟩
  have hbatch : batchOf events ⟨w, 0, []⟩ = events := by
    simpa [batchOf] using takeWhile_of_all _ events hall
  have hstep : step (fun _ => false) events ⟨w, 0, []⟩ =
      ⟨w + SEND_INTERVAL_MS, events.length,
        [(w, String.intercalate "\n" (events.map Fragment.text))]⟩ := by
    simp [step, hbatch, List.isEmpty_iff, hne]
  show (run (fun _ => false) events k (step (fun _ => false) events ⟨w, 0, []⟩)).sends = _
  rw [hstep]
  exact run_sends_stable (fun _ => false) events k _ (le_refl _)

/-- C6 amended witness: the three fragments of the counterexample, all
enqueued by the time the worker wakes at 500 ms, go out in one send. -/
theorem C6_burst_coalescing_amended_witness :
    ([⟨0, "a"⟩, ⟨200, "b"⟩, ⟨400, "c"⟩] : List Fragment) ≠ [] ∧
    ([⟨0, "a"⟩, ⟨200, "b"⟩, ⟨400, "c"⟩] : List Fragment).all
      (fun f => f.enqAt ≤ 500) = true ∧
    1 ≤ 5 ∧
    (run (fun _ => false) [⟨0, "a"⟩, ⟨200, "b"⟩, ⟨400, "c"⟩] 5 ⟨500, 0, []⟩).sends =
      [(500, "a\nb\nc")] :=
  ⟨by decide, by decide, by decide,
   (C6_burst_coalescing_amended [⟨0, "a"⟩, ⟨200, "b"⟩, ⟨400, "c"⟩] 500 5
      (by decide) (by decide) (by decide)).trans (by decide)⟩

/-- C8 (Dropped batch on transport failure): when the worker wakes with a
nonempty deque and the send raises, the exception is caught (the loop state
steps normally), no send is recorded, the worker's next wake-up is 2 s later,
the popped batch is consumed without ever being re-enqueued, and every batch
any number of iterations later draws only from the fragments beyond the
dropped ones — which themselves remain available in the queue. -/
theorem C8_transport_failure_drops_batch (failsAt : Nat → Bool)
    (events : List Fragment) (s : WState) (n : Nat)
    (hne : (batchOf events s).isEmpty = false) (hfail : failsAt s.time = true) :
    (step failsAt events s).sends = s.sends ∧
    (step failsAt events s).time = s.time + ERROR_BACKOFF_MS ∧
    (step failsAt events s).consumed = s.consumed + (batchOf events s).length ∧
    (batchOf events (run failsAt events n (step failsAt events s))).Sublist
      (events.drop (s.consumed + (batchOf events s).length)) := by
  have hstep : step failsAt events s =
      ⟨s.time + ERROR_BACKOFF_MS, s.consumed + (batchOf events s).length, s.sends⟩ := by
    simp [step, hne, hfail]
  have hcons : (step failsAt events s).consumed =
      s.consumed + (batchOf events s).length := by rw [hstep]
  refine ⟨by rw [hstep], by rw [hstep], hcons, ?_⟩
  have hmono : s.consumed + (batchOf events s).length ≤
      (run failsAt events n (step failsAt events s)).consumed := by
    rw [← hcons]
    exact run_consumed_le failsAt events n (step failsAt events s)
  exact (List.takeWhile_sublist _).trans (List.drop_sublist_drop_left events hmono)

/-- C8 witness: fragment "x" enqueued at 0 ms is popped at the failing send
at 0 ms and lost; the worker backs off to 2000 ms, and later batches draw
only from the later fragment "y". -/
theorem C8_transport_failure_drops_batch_witness :
    (batchOf [⟨0, "x"⟩, ⟨1500, "y"⟩] ⟨0, 0, []⟩).isEmpty = false ∧
    (fun t => t == 0) 0 = true ∧
    ((step (fun t => t == 0) [⟨0, "x"⟩, ⟨1500, "y"⟩] ⟨0, 0, []⟩).sends = [] ∧
     (step (fun t => t == 0) [⟨0, "x"⟩, ⟨1500, "y"⟩] ⟨0, 0, []⟩).time =
       0 + ERROR_BACKOFF_MS ∧
     (step (fun t => t == 0) [⟨0, "x"⟩, ⟨1500, "y"⟩] ⟨0, 0, []⟩).consumed =
       0 + (batchOf [⟨0, "x"⟩, ⟨1500, "y"⟩] ⟨0, 0, []⟩).length ∧
     (batchOf [⟨0, "x"⟩, ⟨1500, "y"⟩]
        (run (fun t => t == 0) [⟨0, "x"⟩, ⟨1500, "y"⟩] 3
          (step (fun t => t == 0) [⟨0, "x"⟩, ⟨1500, "y"⟩] ⟨0, 0, []⟩))).Sublist
       ([⟨0, "x"⟩, ⟨1500, "y"⟩].drop
         (0 + (batchOf [⟨0, "x"⟩, ⟨1500, "y"⟩] ⟨0, 0, []⟩).length))) :=
  ⟨by decide, by decide,
   C8_transport_failure_drops_batch (fun t => t == 0) [⟨0, "x"⟩, ⟨1500, "y"⟩]
     ⟨0, 0, []⟩ 3 (by decide) (by decide)⟩

end RemindMe
